import Mathlib

/-!
Shallow embedding of `src/cmd/sync.py` (proxmox-cert-sync).

The program reads a PEM certificate/key pair from disk, validates it
locally (`_validate_certificate_pair`, `_public_keys_match`,
`_certificate_covers_hosts`), and — unless dry-run — uploads it to a
Proxmox node, polls the resulting task (`_poll_task`), restarts services
(`_restart_services`) and best-effort-verifies the remote state
(`_verify_remote_certificate`), all under the retry loop in `main`.

External collaborators (the `cryptography` PEM parsers, `requests`
HTTP calls, the filesystem, the clock) are modelled as explicit inputs:
a parse is an already-determined `ParseResult`, an HTTP exchange is an
`HttpResult` value supplied by the environment, file contents are
`Option` values (missing file = `none`), and wall-clock instants are
integer seconds.  Python exceptions are `Except` errors, with the
distinction the code relies on — `ConfigError` versus any other
exception — kept in `ValidationFailure.isConfigError`.
-/

namespace ProxmoxCertSync

/-- Result of handing bytes to an external parser (`load_pem_x509_certificate`,
`load_pem_private_key`, `response.json()`): either a parsed value or a raised
`ValueError`/decode error. -/
inductive ParseResult (α : Type) where
  | ok (val : α)
  | malformed
  deriving Repr, DecidableEq

/-- Public key numbers as compared by `_public_keys_match` via
`public_numbers()`: modulus+exponent for RSA, curve and point for EC,
p/q/g/y for DSA. -/
inductive PublicKey where
  | rsa (n e : Nat)
  | ecKey (curveName : String) (x y : Nat)
  | dsaKey (p q g y : Nat)
  deriving Repr, DecidableEq

/-- The algorithm family of a public key (RSA / EC / DSA). -/
inductive KeyFamily where
  | rsa
  | ec
  | dsa
  deriving Repr, DecidableEq

def keyFamily : PublicKey → KeyFamily
  | .rsa _ _ => .rsa
  | .ecKey _ _ _ => .ec
  | .dsaKey _ _ _ _ => .dsa

/-- `_public_keys_match` (sync.py lines 166–173): three `isinstance` guarded
branches comparing `public_numbers()`; any cross-family pair falls through to
`False`. -/
def publicKeysMatch : PublicKey → PublicKey → Bool
  | .rsa n e, .rsa n' e' => n == n' && e == e'
  | .ecKey c x y, .ecKey c' x' y' => c == c' && x == x' && y == y'
  | .dsaKey p q g y, .dsaKey p' q' g' y' => p == p' && q == q' && g == g' && y == y'
  | _, _ => false

/-- A private key, reduced to the public key `private_key.public_key()`
derives from it — the only part `_validate_certificate_pair` consults. -/
structure PrivateKey where
  publicKey : PublicKey
  deriving Repr, DecidableEq

/-- A parsed X.509 certificate, reduced to the fields the validator reads:
SAN DNS names, subject common names, `not_valid_after` (wall-clock seconds)
with its optional timezone offset (seconds; `none` = naive datetime), and the
embedded public key. -/
structure Certificate where
  sanDNSNames : List String
  commonNames : List String
  notAfter : Int
  notAfterTzOffset : Option Int
  publicKey : PublicKey
  deriving Repr, DecidableEq

/-- Python's `str.lower()` on the ASCII strings that appear in hostnames
and certificate names: lower-case each character. -/
def strLower (s : String) : String := ⟨s.data.map Char.toLower⟩

/-- Shell-glob matching as `fnmatch.fnmatch` performs it on POSIX for the
patterns certificates carry: `*` matches any run of characters (including
`.`), `?` matches exactly one character, every other character matches
itself.  (`fnmatch` additionally supports `[seq]` classes; certificate names
contain no brackets, so that branch is not modelled.) -/
def globMatch : List Char → List Char → Bool
  | [], s => s.isEmpty
  | '*' :: ps, s => s.tails.any fun t => globMatch ps t
  | '?' :: _, [] => false
  | '?' :: ps, _ :: s => globMatch ps s
  | _ :: _, [] => false
  | c :: ps, d :: s => c == d && globMatch ps s

/-- `_certificate_covers_hosts` (sync.py lines 176–193): collect SAN DNS
names plus subject common names, lower-case them, and require every expected
host (lower-cased) to `fnmatch` at least one of them. -/
def certificateCoversHosts (certificate : Certificate) (expectedHosts : List String) : Bool :=
  let names := certificate.sanDNSNames ++ certificate.commonNames
  let normalized := names.map strLower
  expectedHosts.all fun host =>
    normalized.any fun pattern => globMatch pattern.data (strLower host).data

/-- The failures `_validate_certificate_pair` and `_read_file` can raise.
`malformedInput` stands for the `ValueError` the PEM parsers raise — it is
*not* a `ConfigError`; the other four are `ConfigError`s. -/
inductive ValidationFailure where
  | malformedInput
  | keyMismatch
  | expiringSoon
  | hostnameNotCovered
  | missingFile
  deriving Repr, DecidableEq

/-- Which exception class a failure belongs to: `main` catches `ConfigError`
(exit 3) separately from every other exception (exit 4). -/
def ValidationFailure.isConfigError : ValidationFailure → Bool
  | .malformedInput => false
  | _ => true

/-- `not_after` normalized as in sync.py lines 152–154: a naive timestamp is
reinterpreted as UTC (`replace(tzinfo=utc)`), an aware one is converted by
subtracting its offset. -/
def normalizedNotAfter (certificate : Certificate) : Int :=
  match certificate.notAfterTzOffset with
  | none => certificate.notAfter
  | some off => certificate.notAfter - off

/-- Seconds per day, the scale of `datetime.timedelta(days=·)`. -/
def secondsPerDay : Int := 86400

/-- `_validate_certificate_pair` (sync.py lines 142–163): parse both PEMs
(raising `ValueError` ≙ `malformedInput` on failure), check the key pair
matches, check remaining validity `not_after − now` is at least
`min_valid_days` days, and — only when `expected_hosts` is non-empty — check
hostname coverage.  `now` is the current UTC time in seconds. -/
def validateCertificatePair (certPem : ParseResult Certificate)
    (keyPem : ParseResult PrivateKey) (expectedHosts : List String)
    (minValidDays : Int) (now : Int) : Except ValidationFailure Unit :=
  match certPem with
  | .malformed => .error .malformedInput
  | .ok certificate =>
    match keyPem with
    | .malformed => .error .malformedInput
    | .ok privateKey =>
      if !publicKeysMatch certificate.publicKey privateKey.publicKey then
        .error .keyMismatch
      else if normalizedNotAfter certificate - now < minValidDays * secondsPerDay then
        .error .expiringSoon
      else if !expectedHosts.isEmpty && !certificateCoversHosts certificate expectedHosts then
        .error .hostnameNotCovered
      else
        .ok ()

/-- Python's `str.strip()` on ASCII text: drop whitespace from both ends. -/
def pyStrip (s : String) : String :=
  ⟨(((s.data.dropWhile Char.isWhitespace).reverse).dropWhile Char.isWhitespace).reverse⟩

/-- Python's `str.split(",")`: cut at every comma, keeping empty pieces
(`"".split(",") == [""]`). -/
def splitCommaAux : List Char → List (List Char)
  | [] => [[]]
  | c :: rest =>
    let r := splitCommaAux rest
    if c = ',' then [] :: r
    else
      match r with
      | x :: xs => (c :: x) :: xs
      | [] => [[c]]

/-- `s.split(",")` lifted to `String`. -/
def splitComma (s : String) : List String :=
  (splitCommaAux s.data).map fun cs => ⟨cs⟩

/-- `Config.from_env` lines 87–92: split `EXPECTED_HOSTNAMES` on commas,
strip each part, drop empties; when nothing remains, fall back to the
hostname `urlparse` extracted from the API URL (when there is one).
`urlHostname` stands for `urlparse(api_url).hostname`. -/
def expectedHostnamesFromEnv (raw : String) (urlHostname : Option String) : List String :=
  let hs := ((splitComma (pyStrip raw)).map pyStrip).filter fun h => !(h == "")
  if hs.isEmpty then
    match urlHostname with
    | some h => [h]
    | none => []
  else hs

/-! ## Remote task protocol client -/

/-- An HTTP exchange as the environment resolves it: either a response with
a status code and a (possibly unparsable) body, or a raised exception
(connection failure, timeout of the underlying call, …). -/
inductive HttpResult (α : Type) where
  | response (status : Nat) (body : ParseResult α)
  | exn (msg : String)
  deriving Repr, DecidableEq

/-- The fields `_poll_task` reads out of `response.json().get("data") or {}`. -/
structure TaskData where
  status : Option String
  exitstatus : Option String
  deriving Repr, DecidableEq

/-- Outcome of `_poll_task`: normal return, the `RuntimeError` carrying the
task's exit status, the timeout `RuntimeError`, a re-raised transport/parse
exception, or — a model artifact — the supplied response stream ran out
before the loop finished (never reached when enough responses are given). -/
inductive PollResult where
  | ok
  | taskFailed (exitstatus : Option String)
  | timedOut
  | raised (msg : String)
  | streamEnded
  deriving Repr, DecidableEq

/-- Loop body of `_poll_task` (sync.py lines 235–251).  `resps` are the
successive results of `session.get(...)`; `elapsed` is the wall-clock time
consumed so far (HTTP calls are instantaneous in the model, `time.sleep`
advances the clock by `interval`).  Returns the outcome, the number of
status calls made, and the list of sleeps performed, in order. -/
def pollTaskGo (interval timeout : Nat) :
    List (HttpResult TaskData) → Nat → PollResult × Nat × List Nat
  | resps, elapsed =>
    if elapsed < timeout then
      match resps with
      | [] => (.streamEnded, 0, [])
      | r :: rest =>
        match r with
        | .exn m => (.raised m, 1, [])
        | .response status body =>
          if status ≥ 400 then (.raised "Task status fetch failed", 1, [])
          else
            match body with
            | .malformed => (.raised "json decode error", 1, [])
            | .ok data =>
              if data.status = some "stopped" then
                if data.exitstatus = some "OK" then (.ok, 1, [])
                else (.taskFailed data.exitstatus, 1, [])
              else
                let r := pollTaskGo interval timeout rest (elapsed + interval)
                (r.1, r.2.1 + 1, interval :: r.2.2)
    else (.timedOut, 0, [])

/-- `_poll_task` from a cold start: `deadline = time.time() + timeout`, so the
loop begins with zero elapsed time. -/
def pollTask (interval timeout : Nat) (resps : List (HttpResult TaskData)) :
    PollResult × Nat × List Nat :=
  pollTaskGo interval timeout resps 0

/-! ## Sync attempt and retry loop -/

/-- The environment one attempt of the post-validation sequence runs
against: the response to the upload POST (its parsed body is the optional
task-id string `payload["data"]`), the outcome `_poll_task` would produce,
the outcome `_restart_services` would produce, and the response to the
verify GET. -/
structure AttemptEnv where
  uploadResp : HttpResult (Option String)
  pollOutcome : Except String Unit
  restartOutcome : Except String Unit
  verifyResp : HttpResult Unit
  deriving Repr

/-- `_upload_certificate` (sync.py lines 211–232): a status ≥ 400 raises, an
unparsable JSON body raises, otherwise the optional task id is returned. -/
def uploadCertificate : HttpResult (Option String) → Except String (Option String)
  | .exn m => .error m
  | .response status body =>
    if status ≥ 400 then .error "Certificate upload failed"
    else
      match body with
      | .malformed => .error "json decode error"
      | .ok taskId => .ok taskId

/-- `_verify_remote_certificate` (sync.py lines 264–273): a raised exception
propagates; a response with status ≥ 400 is logged as a warning and
swallowed (the body is never parsed); otherwise the body is parsed (an
unparsable body raises) and the state merely logged. -/
def verifyRemoteCertificate : HttpResult Unit → Except String Unit
  | .exn m => .error m
  | .response status body =>
    if status ≥ 400 then .ok ()
    else
      match body with
      | .malformed => .error "json decode error"
      | .ok _ => .ok ()

/-- One iteration of the `main` retry-loop body (sync.py lines 310–314):
upload, poll the task when a task id came back and polling is configured,
restart services, verify remote state.  Any raise aborts the attempt. -/
def runSyncAttempt (pollCfg : Bool) (env : AttemptEnv) : Except String Unit :=
  match uploadCertificate env.uploadResp with
  | .error m => .error m
  | .ok taskId =>
    match (if taskId.isSome && pollCfg then env.pollOutcome else .ok ()) with
    | .error m => .error m
    | .ok _ =>
      match env.restartOutcome with
      | .error m => .error m
      | .ok _ =>
        match verifyRemoteCertificate env.verifyResp with
        | .error m => .error m
        | .ok _ => .ok ()

/-- Whether one attempt of the post-validation sequence completes without
raising. -/
def attemptSucceeds (pollCfg : Bool) (env : AttemptEnv) : Bool :=
  match runSyncAttempt pollCfg env with
  | .ok _ => true
  | .error _ => false

/-- The retry loop of `main` (sync.py lines 307–324), unrolled on the number
of attempts still permitted (`remaining = max_retries + 1 − attempt`, so the
`while attempt <= max_retries` guard is `remaining > 0`).  On an exception
the attempt counter increments and, unless retries are exhausted, the loop
sleeps `retry_delay * attempt` before retrying.  Returns the exit code, the
total number of attempts made, and the sleeps performed, in order. -/
def syncLoopGo (pollCfg : Bool) (envs : Nat → AttemptEnv) (retryDelay : Nat) :
    Nat → Nat → Nat × Nat × List Nat
  | attempt, 0 => (1, attempt, [])
  | attempt, remaining + 1 =>
    match runSyncAttempt pollCfg (envs attempt) with
    | .ok _ => (0, attempt + 1, [])
    | .error _ =>
      if remaining = 0 then (1, attempt + 1, [])
      else
        let r := syncLoopGo pollCfg envs retryDelay (attempt + 1) remaining
        (r.1, r.2.1, retryDelay * (attempt + 1) :: r.2.2)

/-- The retry loop from its entry: `attempt = 0`, at most `max_retries + 1`
attempts.  `envs n` is the environment the `n`-th attempt (0-based) runs
against. -/
def runSync (pollCfg : Bool) (envs : Nat → AttemptEnv) (maxRetries retryDelay : Nat) :
    Nat × Nat × List Nat :=
  syncLoopGo pollCfg envs retryDelay 0 (maxRetries + 1)

/-! ## main -/

/-- Everything `main` consumes after configuration loading succeeded: the
two required input files (`none` = missing, raising `ConfigError` in
`_read_file`; a present file yields its parse result), the validation
policy, the dry-run flag, and the network environment of the retry loop.
The CA bundle file never feeds validation and is omitted. -/
structure MainEnv where
  certFile : Option (ParseResult Certificate)
  keyFile : Option (ParseResult PrivateKey)
  expectedHostnames : List String
  minValidityDays : Int
  now : Int
  dryRun : Bool
  pollCfg : Bool
  maxRetries : Nat
  retryDelay : Nat
  attemptEnvs : Nat → AttemptEnv

/-- `_read_file` (sync.py lines 134–139): a missing file raises
`ConfigError("Required file missing: …")`. -/
def readRequiredFile {α : Type} : Option α → Except ValidationFailure α
  | none => .error .missingFile
  | some v => .ok v

/-- The read-and-validate block of `main` (sync.py lines 287–292): read the
certificate file, read the key file, validate the pair. -/
def mainValidation (env : MainEnv) : Except ValidationFailure Unit :=
  match readRequiredFile env.certFile with
  | .error e => .error e
  | .ok certPem =>
    match readRequiredFile env.keyFile with
    | .error e => .error e
    | .ok keyPem =>
      validateCertificatePair certPem keyPem env.expectedHostnames env.minValidityDays env.now

/-- `main` after configuration loading (sync.py lines 283–324): a
`ConfigError` in the validation block exits 3, any other exception exits 4;
on success, dry-run exits 0 immediately (no session, no HTTP), otherwise the
retry loop runs.  Returns the exit code, the number of network attempts
made, and the retry sleeps performed. -/
def mainRun (env : MainEnv) : Nat × Nat × List Nat :=
  match mainValidation env with
  | .error e => if e.isConfigError then (3, 0, []) else (4, 0, [])
  | .ok _ =>
    if env.dryRun then (0, 0, [])
    else runSync env.pollCfg env.attemptEnvs env.maxRetries env.retryDelay

/-! ## Concrete fixtures used by witnesses and counterexamples -/

/-- A certificate whose only name is the SAN `*.example.com`. -/
def wildcardCert : Certificate :=
  { sanDNSNames := ["*.example.com"], commonNames := [], notAfter := 0,
    notAfterTzOffset := none, publicKey := .rsa 1 1 }

/-- A certificate valid for 100 days past epoch on `pve.example.com`. -/
def exCert : Certificate :=
  { sanDNSNames := ["pve.example.com"], commonNames := [], notAfter := 100 * 86400,
    notAfterTzOffset := none, publicKey := .rsa 91 7 }

/-- A private key matching `exCert`. -/
def exKey : PrivateKey := ⟨.rsa 91 7⟩

/-- A status response reporting the task still running. -/
def runningResp : HttpResult TaskData := .response 200 (.ok ⟨some "running", none⟩)

/-- A status response reporting the task stopped with exit status OK. -/
def stoppedOKResp : HttpResult TaskData := .response 200 (.ok ⟨some "stopped", some "OK"⟩)

/-- An attempt environment in which every stage succeeds. -/
def okAttemptEnv : AttemptEnv :=
  { uploadResp := .response 200 (.ok none), pollOutcome := .ok (),
    restartOutcome := .ok (), verifyResp := .response 200 (.ok ()) }

/-- An attempt environment whose upload POST raises a connection error. -/
def uploadFailEnv : AttemptEnv :=
  { okAttemptEnv with uploadResp := .exn "connection refused" }

/-- An attempt environment in which upload, poll and restart succeed but the
verify GET raises a connection error. -/
def verifyExnEnv : AttemptEnv :=
  { okAttemptEnv with verifyResp := .exn "connection reset by peer" }

/-- An attempt environment in which upload, poll and restart succeed and the
verify GET returns HTTP 500. -/
def verify500Env : AttemptEnv :=
  { okAttemptEnv with verifyResp := .response 500 .malformed }

/-- A main environment with a valid certificate/key pair, dry-run enabled. -/
def exMainEnv : MainEnv :=
  { certFile := some (.ok exCert), keyFile := some (.ok exKey),
    expectedHostnames := ["pve.example.com"], minValidityDays := 20, now := 0,
    dryRun := true, pollCfg := true, maxRetries := 1, retryDelay := 5,
    attemptEnvs := fun _ => okAttemptEnv }

/-! ## Theorems -/

/-- C3 (counterexample): the claim says a certificate whose only name is
SAN `*.example.com` does **not** cover `a.b.example.com`; in
`_certificate_covers_hosts` the `fnmatch` wildcard spans dots, so the
certificate does cover it. -/
theorem C3_counterexample :
    certificateCoversHosts wildcardCert ["a.b.example.com"] = true := by decide

/-- C3 (amended): hostname coverage uses `fnmatch` shell-glob semantics in
which `*` matches any run of characters including dots: a certificate whose
only name is SAN `*.example.com` covers `a.example.com` and also
`a.b.example.com`, but not `example.com` (the wildcard may span several
labels, unlike a wildcard certificate's single-label `*`). -/
theorem C3_amended :
    certificateCoversHosts wildcardCert ["a.example.com"] = true ∧
    certificateCoversHosts wildcardCert ["example.com"] = false ∧
    certificateCoversHosts wildcardCert ["a.b.example.com"] = true := by decide

/-- C4: the key-match check of `_public_keys_match` succeeds iff the two
public keys are of the same algorithm family and have identical public
numeric parameters; inside `_validate_certificate_pair` any non-matching
pair fails with `KeyMismatch`. -/
theorem C4_key_match :
    (∀ k₁ k₂ : PublicKey,
        publicKeysMatch k₁ k₂ = true ↔ keyFamily k₁ = keyFamily k₂ ∧ k₁ = k₂) ∧
    (∀ (cert : Certificate) (key : PrivateKey) (hosts : List String) (d now : Int),
        publicKeysMatch cert.publicKey key.publicKey = false →
        validateCertificatePair (.ok cert) (.ok key) hosts d now = .error .keyMismatch) := by
  constructor
  · intro k₁ k₂
    cases k₁ <;> cases k₂ <;>
      simp [publicKeysMatch, keyFamily] <;> aesop
  · intro cert key hosts d now h
    simp [validateCertificatePair, h]

/-- C4 witness: the matching pair of `exCert`/`exKey` and a concrete
mismatched pair. -/
theorem C4_key_match_witness :
    publicKeysMatch (PublicKey.rsa 91 7) (PublicKey.rsa 91 7) = true ∧
    validateCertificatePair (.ok exCert) (.ok ⟨.ecKey "secp256r1" 1 2⟩) [] 20 0 =
      .error .keyMismatch := by
  constructor
  · exact (C4_key_match.1 (PublicKey.rsa 91 7) (PublicKey.rsa 91 7)).2 (by decide)
  · exact C4_key_match.2 exCert ⟨.ecKey "secp256r1" 1 2⟩ [] 20 0 (by decide)

/-- C5: for a parsed pair whose keys match, validation fails with
`ExpiringSoon` exactly when the UTC-normalized not-after minus the current
UTC time is strictly less than `minValidityDays` days; at not-after equal to
`now + minValidityDays - 1 day` it fails, and at not-after exactly
`now + minValidityDays` it succeeds (boundary inclusive). -/
theorem C5_expiry_boundary :
    (∀ (cert : Certificate) (key : PrivateKey) (hosts : List String) (d now : Int),
        publicKeysMatch cert.publicKey key.publicKey = true →
        (validateCertificatePair (.ok cert) (.ok key) hosts d now = .error .expiringSoon ↔
          normalizedNotAfter cert - now < d * secondsPerDay)) ∧
    (∀ (key : PrivateKey) (san : List String) (cn : List String) (pk : PublicKey) (d now : Int),
        publicKeysMatch pk key.publicKey = true →
        validateCertificatePair
          (.ok ⟨san, cn, now + d * secondsPerDay, none, pk⟩) (.ok key) [] d now = .ok ()) ∧
    (∀ (key : PrivateKey) (san : List String) (cn : List String) (pk : PublicKey) (d now : Int),
        publicKeysMatch pk key.publicKey = true →
        validateCertificatePair
          (.ok ⟨san, cn, now + d * secondsPerDay - secondsPerDay, none, pk⟩) (.ok key) [] d now =
          .error .expiringSoon) := by
  refine ⟨?_, ?_, ?_⟩
  · intro cert key hosts d now hk
    by_cases hexp : normalizedNotAfter cert - now < d * secondsPerDay
    · simp [validateCertificatePair, hk, hexp]
    · by_cases hcov : (!hosts.isEmpty && !certificateCoversHosts cert hosts) = true <;>
        simp [validateCertificatePair, hk, hexp, hcov]
  · intro key san cn pk d now hk
    simp [validateCertificatePair, hk, normalizedNotAfter]
  · intro key san cn pk d now hk
    have : now + d * secondsPerDay - secondsPerDay - now < d * secondsPerDay := by
      have : (0 : Int) < secondsPerDay := by decide
      omega
    simp [validateCertificatePair, hk, normalizedNotAfter, this]

/-- C5 witness: with `minValidityDays = 20` and `now = 0`, a certificate
expiring at exactly day 20 passes and one expiring at day 19 fails. -/
theorem C5_expiry_boundary_witness :
    validateCertificatePair
      (.ok ⟨["pve.example.com"], [], 0 + 20 * secondsPerDay, none, .rsa 91 7⟩)
      (.ok exKey) [] 20 0 = .ok () ∧
    validateCertificatePair
      (.ok ⟨["pve.example.com"], [], 0 + 20 * secondsPerDay - secondsPerDay, none, .rsa 91 7⟩)
      (.ok exKey) [] 20 0 = .error .expiringSoon := by
  constructor
  · exact C5_expiry_boundary.2.1 exKey ["pve.example.com"] [] (.rsa 91 7) 20 0 (by decide)
  · exact C5_expiry_boundary.2.2 exKey ["pve.example.com"] [] (.rsa 91 7) 20 0 (by decide)

/-- Helper: a run of still-running responses long enough to consume the
deadline makes `_poll_task` time out. -/
theorem pollTaskGo_replicate_running_timedOut (i t : Nat) :
    ∀ (k elapsed : Nat), t ≤ elapsed + k * i →
      (pollTaskGo i t (List.replicate k runningResp) elapsed).1 = PollResult.timedOut := by
  intro k
  induction k with
  | zero =>
    intro elapsed h
    have he : ¬ elapsed < t := by omega
    simp [pollTaskGo, he]
  | succ k ih =>
    intro elapsed h
    by_cases he : elapsed < t
    · rw [List.replicate_succ]
      simp [pollTaskGo, he, runningResp]
      exact ih (elapsed + i) (by rw [Nat.succ_mul] at h; omega)
    · simp [pollTaskGo, he]

/-- Helper: `_poll_task` returns normally only if some fetched response was
a well-formed success response reporting the task stopped with exit status
OK. -/
theorem pollTaskGo_ok_mem (i t : Nat) :
    ∀ (resps : List (HttpResult TaskData)) (elapsed : Nat),
      (pollTaskGo i t resps elapsed).1 = PollResult.ok →
      ∃ s d, HttpResult.response s (ParseResult.ok d) ∈ resps ∧ s < 400 ∧
        d.status = some "stopped" ∧ d.exitstatus = some "OK" := by
  intro resps
  induction resps with
  | nil =>
    intro elapsed h
    by_cases he : elapsed < t <;> simp [pollTaskGo, he] at h
  | cons r rest ih =>
    intro elapsed h
    by_cases he : elapsed < t
    · cases r with
      | exn m => simp [pollTaskGo, he] at h
      | response status body =>
        by_cases hs : status ≥ 400
        · simp [pollTaskGo, he, hs] at h
        · cases body with
          | malformed => simp [pollTaskGo, he, hs] at h
          | ok data =>
            by_cases hst : data.status = some "stopped"
            · by_cases hex : data.exitstatus = some "OK"
              · exact ⟨status, data, by simp, by omega, hst, hex⟩
              · simp [pollTaskGo, he, hs, hst, hex] at h
            · simp only [pollTaskGo, he, if_true, hs, hst] at h
              simp at h
              obtain ⟨s, d, hm, h4, h5, h6⟩ := ih (elapsed + i) h
              exact ⟨s, d, by simp [hm], h4, h5, h6⟩
    · simp [pollTaskGo, he] at h

/-- C7: `_poll_task` succeeds exactly on a fetched stopped/OK status — on
the sequence [running, running, stopped/OK] it returns success after
exactly 3 status calls with the configured interval slept between them; a
stopped status with any other exit status fails carrying that exit status
after one call; exhausting the deadline yields `timedOut`, a result
distinct from every `taskFailed`. -/
theorem C7_poll :
    (∀ (i t : Nat) (rest : List (HttpResult TaskData)), 2 * i < t →
        pollTask i t (runningResp :: runningResp :: stoppedOKResp :: rest) =
          (.ok, 3, [i, i])) ∧
    (∀ (i t : Nat) (e : Option String) (rest : List (HttpResult TaskData)),
        0 < t → e ≠ some "OK" →
        pollTask i t (.response 200 (.ok ⟨some "stopped", e⟩) :: rest) =
          (.taskFailed e, 1, [])) ∧
    (∀ (i t k : Nat), t ≤ k * i →
        (pollTask i t (List.replicate k runningResp)).1 = .timedOut) ∧
    (∀ e, PollResult.timedOut ≠ PollResult.taskFailed e) ∧
    (∀ (i t elapsed : Nat) (resps : List (HttpResult TaskData)),
        (pollTaskGo i t resps elapsed).1 = .ok →
        ∃ s d, HttpResult.response s (ParseResult.ok d) ∈ resps ∧ s < 400 ∧
          d.status = some "stopped" ∧ d.exitstatus = some "OK") := by
  refine ⟨?_, ?_, ?_, ?_, ?_⟩
  · intro i t rest h
    have h0 : 0 < t := by omega
    have h1 : i < t := by omega
    have h2 : i + i < t := by omega
    simp [pollTask, pollTaskGo, runningResp, stoppedOKResp, h0, h1, h2]
  · intro i t e rest h0 he
    simp [pollTask, pollTaskGo, h0, he]
  · intro i t k h
    exact pollTaskGo_replicate_running_timedOut i t k 0 (by omega)
  · intro e h
    exact PollResult.noConfusion h
  · intro i t elapsed resps h
    exact pollTaskGo_ok_mem i t resps elapsed h

/-- C7 witness: with interval 2 and timeout 60 the running/running/stopped
sequence takes 3 calls and two 2-second sleeps; a stopped task reporting an
error string fails after one call; with timeout 4 three running responses
exhaust the deadline. -/
theorem C7_poll_witness :
    pollTask 2 60 [runningResp, runningResp, stoppedOKResp] = (.ok, 3, [2, 2]) ∧
    pollTask 2 60 [.response 200 (.ok ⟨some "stopped", some "command failed"⟩)] =
      (.taskFailed (some "command failed"), 1, []) ∧
    (pollTask 2 4 (List.replicate 3 runningResp)).1 = .timedOut := by
  refine ⟨?_, ?_, ?_⟩
  · exact C7_poll.1 2 60 [] (by decide)
  · exact C7_poll.2.1 2 60 (some "command failed") [] (by decide) (by decide)
  · exact C7_poll.2.2.1 2 4 3 (by decide)

/-- Helper: the retry loop never makes more attempts than it has left. -/
theorem syncLoopGo_attempts_le (pollCfg : Bool) (envs : Nat → AttemptEnv) (d : Nat) :
    ∀ (remaining attempt : Nat),
      (syncLoopGo pollCfg envs d attempt remaining).2.1 ≤ attempt + remaining := by
  intro remaining
  induction remaining with
  | zero => intro attempt; simp [syncLoopGo]
  | succ r ih =>
    intro attempt
    cases hA : runSyncAttempt pollCfg (envs attempt) with
    | ok v => simp [syncLoopGo, hA]
    | error e =>
      by_cases hr : r = 0
      · simp [syncLoopGo, hA, hr]
      · have := ih (attempt + 1)
        simp only [syncLoopGo, hA, hr, if_false]
        omega

/-- Helper: if attempt `i` is the first to succeed and lies within the
budget, the loop stops there with exit code 0, `i + 1` total attempts, and
linear-backoff sleeps `d*(attempt+1), …, d*i`. -/
theorem syncLoopGo_first_success (pollCfg : Bool) (envs : Nat → AttemptEnv) (d : Nat) :
    ∀ (remaining attempt i : Nat), attempt ≤ i → i < attempt + remaining →
      attemptSucceeds pollCfg (envs i) = true →
      (∀ j, attempt ≤ j → j < i → attemptSucceeds pollCfg (envs j) = false) →
      syncLoopGo pollCfg envs d attempt remaining =
        (0, i + 1, (List.range' (attempt + 1) (i - attempt)).map fun k => d * k) := by
  intro remaining
  induction remaining with
  | zero => intro attempt i h1 h2 _ _; omega
  | succ r ih =>
    intro attempt i h1 h2 hok hfail
    by_cases hi : i = attempt
    · subst hi
      cases hA : runSyncAttempt pollCfg (envs i) with
      | error e => simp [attemptSucceeds, hA] at hok
      | ok v => simp [syncLoopGo, hA]
    · have hj : attemptSucceeds pollCfg (envs attempt) = false :=
        hfail attempt le_rfl (by omega)
      cases hA : runSyncAttempt pollCfg (envs attempt) with
      | ok v => simp [attemptSucceeds, hA] at hj
      | error e =>
        have hr : r ≠ 0 := by omega
        have hrec := ih (attempt + 1) i (by omega) (by omega) hok
          (fun j hj1 hj2 => hfail j (by omega) hj2)
        have hsl : (List.range' (attempt + 1) (i - attempt)).map (fun k => d * k) =
            d * (attempt + 1) ::
              (List.range' (attempt + 1 + 1) (i - (attempt + 1))).map fun k => d * k := by
          rw [show i - attempt = (i - (attempt + 1)) + 1 by omega, List.range'_succ]
          simp
        simp [syncLoopGo, hA, hr, hrec, hsl]

/-- Helper: if every attempt within the budget fails, the loop exhausts it
with exit code 1, `remaining` total attempts, and sleeps after every
failure but the last. -/
theorem syncLoopGo_all_fail (pollCfg : Bool) (envs : Nat → AttemptEnv) (d : Nat) :
    ∀ (remaining attempt : Nat), 0 < remaining →
      (∀ j, attempt ≤ j → j < attempt + remaining →
        attemptSucceeds pollCfg (envs j) = false) →
      syncLoopGo pollCfg envs d attempt remaining =
        (1, attempt + remaining,
          (List.range' (attempt + 1) (remaining - 1)).map fun k => d * k) := by
  intro remaining
  induction remaining with
  | zero => intro attempt h; omega
  | succ r ih =>
    intro attempt _ hfail
    have hj : attemptSucceeds pollCfg (envs attempt) = false :=
      hfail attempt le_rfl (by omega)
    cases hA : runSyncAttempt pollCfg (envs attempt) with
    | ok v => simp [attemptSucceeds, hA] at hj
    | error e =>
      by_cases hr : r = 0
      · subst hr
        simp [syncLoopGo, hA]
      · obtain ⟨r', rfl⟩ : ∃ r', r = r' + 1 := ⟨r - 1, by omega⟩
        have hrec := ih (attempt + 1) (by omega)
          (fun j h1 h2 => hfail j (by omega) (by omega))
        have hn : attempt + 1 + (r' + 1) = attempt + (r' + 1 + 1) := by omega
        conv_lhs => rw [syncLoopGo]
        simp [hA, hrec, hn, List.range'_succ]

/-- C6: the retry loop of `main` makes at most `maxRetries + 1` attempts;
if attempt `i` (0-based) is the first to complete without raising it stops
there with exit code 0, `i + 1` total attempts, and sleeps
`retryDelay*1, …, retryDelay*i` before the retries; if every permitted
attempt fails it exits 1 after exactly `maxRetries + 1` attempts; in
particular with `maxRetries = 2` and attempts failing twice then
succeeding, exactly 3 attempts occur, the run succeeds, and the sleeps are
`retryDelay*1` then `retryDelay*2`. -/
theorem C6_retry_loop (pollCfg : Bool) (envs : Nat → AttemptEnv)
    (maxRetries retryDelay : Nat) :
    ((runSync pollCfg envs maxRetries retryDelay).2.1 ≤ maxRetries + 1) ∧
    (∀ i, i ≤ maxRetries → attemptSucceeds pollCfg (envs i) = true →
        (∀ j, j < i → attemptSucceeds pollCfg (envs j) = false) →
        runSync pollCfg envs maxRetries retryDelay =
          (0, i + 1, (List.range' 1 i).map fun k => retryDelay * k)) ∧
    ((∀ i, i ≤ maxRetries → attemptSucceeds pollCfg (envs i) = false) →
        runSync pollCfg envs maxRetries retryDelay =
          (1, maxRetries + 1, (List.range' 1 maxRetries).map fun k => retryDelay * k)) ∧
    (∀ failEnv okEnv : AttemptEnv,
        attemptSucceeds pollCfg failEnv = false →
        attemptSucceeds pollCfg okEnv = true →
        runSync pollCfg (fun i => if i < 2 then failEnv else okEnv) 2 retryDelay =
          (0, 3, [retryDelay * 1, retryDelay * 2])) := by
  refine ⟨?_, ?_, ?_, ?_⟩
  · simpa using syncLoopGo_attempts_le pollCfg envs retryDelay (maxRetries + 1) 0
  · intro i hi hok hfail
    have h := syncLoopGo_first_success pollCfg envs retryDelay (maxRetries + 1) 0 i
      (by omega) (by omega) hok (fun j _ hj => hfail j hj)
    simpa [runSync] using h
  · intro hfail
    have h := syncLoopGo_all_fail pollCfg envs retryDelay (maxRetries + 1) 0
      (by omega) (fun j _ hj => hfail j (by omega))
    simpa [runSync] using h
  · intro failEnv okEnv hf hok
    have h := syncLoopGo_first_success pollCfg
      (fun i => if i < 2 then failEnv else okEnv) retryDelay 3 0 2
      (by omega) (by omega) (by simpa using hok)
      (fun j _ hj => by simp only [if_pos hj]; exact hf)
    simpa [runSync, List.range'] using h

/-- C6 witness: with an upload that raises on the first two attempts and a
fully successful third attempt, `maxRetries = 2` and `retryDelay = 5` give
exit code 0 after 3 attempts with sleeps 5 then 10. -/
theorem C6_retry_loop_witness :
    runSync true (fun i => if i < 2 then uploadFailEnv else okAttemptEnv) 2 5 =
      (0, 3, [5 * 1, 5 * 2]) :=
  (C6_retry_loop true (fun i => if i < 2 then uploadFailEnv else okAttemptEnv) 2 5).2.2.2
    uploadFailEnv okAttemptEnv (by decide) (by decide)

/-- C1 (counterexample): the claim says that after successful upload, poll
and restart the run reports success regardless of what the verify step's
HTTP call returns *or raises*; but with upload, poll and restart all
succeeding and the verify GET raising a connection error, the attempt
counts as failed and a run with `maxRetries = 0` exits 1. -/
theorem C1_counterexample :
    uploadCertificate verifyExnEnv.uploadResp = .ok none ∧
    verifyExnEnv.pollOutcome = .ok () ∧
    verifyExnEnv.restartOutcome = .ok () ∧
    runSync true (fun _ => verifyExnEnv) 0 5 = (1, 1, []) :=
  ⟨rfl, rfl, rfl, rfl⟩

/-- C1 (amended): `_verify_remote_certificate` swallows any HTTP *status*
failure — a response with status ≥ 400 is logged and returns normally, and
so does any response whose body parses — but a *raised* exception from the
verify call (connection failure, or an unparsable body on a success
status) propagates: it makes the whole attempt fail, and with retries
exhausted a sync whose upload, poll and restart stages all succeeded exits
1 instead of 0. -/
theorem C1_amended :
    (∀ (s : Nat) (b : ParseResult Unit), 400 ≤ s →
        verifyRemoteCertificate (.response s b) = .ok ()) ∧
    (∀ s : Nat, verifyRemoteCertificate (.response s (.ok ())) = .ok ()) ∧
    (∀ m, verifyRemoteCertificate (.exn m) = .error m) ∧
    (∀ (pollCfg : Bool) (envs : Nat → AttemptEnv) (maxRetries d : Nat),
        (∃ tid, uploadCertificate (envs 0).uploadResp = .ok tid) →
        (envs 0).pollOutcome = .ok () →
        (envs 0).restartOutcome = .ok () →
        (∃ s b, (envs 0).verifyResp = .response s b ∧ (400 ≤ s ∨ b = .ok ())) →
        runSync pollCfg envs maxRetries d = (0, 1, [])) ∧
    (∀ (pollCfg : Bool) (envs : Nat → AttemptEnv) (d : Nat) (m : String),
        (∃ tid, uploadCertificate (envs 0).uploadResp = .ok tid) →
        (envs 0).pollOutcome = .ok () →
        (envs 0).restartOutcome = .ok () →
        (envs 0).verifyResp = .exn m →
        runSync pollCfg envs 0 d = (1, 1, [])) := by
  refine ⟨?_, ?_, ?_, ?_, ?_⟩
  · intro s b h
    simp [verifyRemoteCertificate, h]
  · intro s
    by_cases h : s ≥ 400 <;> simp [verifyRemoteCertificate, h]
  · intro m
    rfl
  · intro pollCfg envs maxRetries d hu hp hr hv
    obtain ⟨tid, hu⟩ := hu
    obtain ⟨s, b, hv, hsb⟩ := hv
    have hvok : verifyRemoteCertificate (envs 0).verifyResp = .ok () := by
      rw [hv]
      rcases hsb with h | h
      · simp [verifyRemoteCertificate, h]
      · subst h
        by_cases hy : s ≥ 400 <;> simp [verifyRemoteCertificate, hy]
    have hA : runSyncAttempt pollCfg (envs 0) = .ok () := by
      cases h1 : tid.isSome && pollCfg <;>
        simp [runSyncAttempt, hu, h1, hp, hr, hvok]
    simp [runSync, syncLoopGo, hA]
  · intro pollCfg envs d m hu hp hr hv
    obtain ⟨tid, hu⟩ := hu
    have hA : runSyncAttempt pollCfg (envs 0) = .error m := by
      cases h1 : tid.isSome && pollCfg <;>
        simp [runSyncAttempt, hu, h1, hp, hr, hv, verifyRemoteCertificate]
    simp [runSync, syncLoopGo, hA]

/-- C1 witness: a verify GET answered with HTTP 500 (body not even
parsable) is swallowed and the run still exits 0 after one attempt; the
same environment with the verify call raising instead exits 1. -/
theorem C1_amended_witness :
    runSync true (fun _ => verify500Env) 1 7 = (0, 1, []) ∧
    runSync true (fun _ => verifyExnEnv) 0 7 = (1, 1, []) := by
  constructor
  · exact C1_amended.2.2.2.1 true (fun _ => verify500Env) 1 7 ⟨none, rfl⟩ rfl rfl
      ⟨500, .malformed, rfl, Or.inl (by omega)⟩
  · exact C1_amended.2.2.2.2 true (fun _ => verifyExnEnv) 7 "connection reset by peer"
      ⟨none, rfl⟩ rfl rfl rfl

/-- C2 (counterexample): the claim says a certificate PEM that cannot be
parsed exits with code 3; in the code `load_pem_x509_certificate` raises a
`ValueError`, which is not a `ConfigError`, so `main` hits the generic
handler and exits 4. -/
theorem C2_counterexample :
    (mainRun { exMainEnv with certFile := some .malformed }).1 = 4 ∧
    (mainRun { exMainEnv with certFile := some .malformed }).1 ≠ 3 := by
  exact ⟨rfl, by decide⟩

/-- C2 (amended): when the certificate or private key PEM bytes cannot be
parsed (both files being present), validation fails with `MalformedInput`,
but that failure is a `ValueError`, not a `ConfigError`, so the process
exits with code 4 (unexpected validation error), not 3 (certificate failed
validation). -/
theorem C2_amended :
    ∀ (env : MainEnv) (pc : ParseResult Certificate) (k : ParseResult PrivateKey),
      env.certFile = some pc → env.keyFile = some k →
      (pc = .malformed ∨ k = .malformed) →
      (mainRun env).1 = 4 ∧ mainValidation env = .error .malformedInput := by
  intro env pc k hc hk h
  have hv : mainValidation env = .error .malformedInput := by
    rcases h with h | h
    · subst h
      simp [mainValidation, readRequiredFile, hc, hk, validateCertificatePair]
    · subst h
      cases pc with
      | malformed =>
        simp [mainValidation, readRequiredFile, hc, hk, validateCertificatePair]
      | ok c =>
        simp [mainValidation, readRequiredFile, hc, hk, validateCertificatePair]
  exact ⟨by simp [mainRun, hv, ValidationFailure.isConfigError], hv⟩

/-- C2 witness: a present-but-unparsable key file with a valid certificate
exits 4. -/
theorem C2_amended_witness :
    (mainRun { exMainEnv with keyFile := some .malformed }).1 = 4 :=
  (C2_amended { exMainEnv with keyFile := some .malformed } (.ok exCert) .malformed
    rfl rfl (Or.inr rfl)).1

/-- C8: with dry-run enabled and validation succeeding, `main` exits 0
having made no network attempt and slept never, and the outcome is
independent of the network environment — the same exit code results no
matter how every HTTP call would have gone (e.g. an unreachable remote). -/
theorem C8_dry_run :
    ∀ env : MainEnv, env.dryRun = true → mainValidation env = .ok () →
      mainRun env = (0, 0, []) ∧
      ∀ envs' : Nat → AttemptEnv, mainRun { env with attemptEnvs := envs' } = (0, 0, []) := by
  intro env hd hv
  constructor
  · simp [mainRun, hv, hd]
  · intro envs'
    have hv' : mainValidation { env with attemptEnvs := envs' } = .ok () := hv
    simp only [mainRun, hv']
    simp [hd]

/-- C8 witness: the dry-run environment `exMainEnv` exits `(0, 0, [])`
even when every attempt environment would raise on upload. -/
theorem C8_dry_run_witness :
    mainRun { exMainEnv with attemptEnvs := fun _ => uploadFailEnv } = (0, 0, []) :=
  (C8_dry_run exMainEnv rfl rfl).2 fun _ => uploadFailEnv

/-- C9: with `EXPECTED_HOSTNAMES` empty (or containing only
whitespace/empty items), `Config.from_env` falls back to the single
hostname parsed from the API URL when there is one; the resulting
singleton list is non-empty, so `_validate_certificate_pair` still runs the
hostname-coverage check against the API host instead of skipping it. -/
theorem C9_default_hostnames :
    (∀ h : String, expectedHostnamesFromEnv "" (some h) = [h]) ∧
    (∀ (raw h : String),
        ((splitComma (pyStrip raw)).map pyStrip).filter (fun x => !(x == "")) = [] →
        expectedHostnamesFromEnv raw (some h) = [h]) ∧
    (∀ (cert : Certificate) (key : PrivateKey) (d now : Int) (h : String),
        publicKeysMatch cert.publicKey key.publicKey = true →
        ¬(normalizedNotAfter cert - now < d * secondsPerDay) →
        validateCertificatePair (.ok cert) (.ok key) [h] d now =
          if certificateCoversHosts cert [h] then .ok () else .error .hostnameNotCovered) := by
  refine ⟨?_, ?_, ?_⟩
  · intro h
    rfl
  · intro raw h hempty
    simp [expectedHostnamesFromEnv, hempty]
  · intro cert key d now h hk hexp
    by_cases hcov : certificateCoversHosts cert [h] = true
    · simp [validateCertificatePair, hk, hexp, hcov]
    · simp only [Bool.not_eq_true] at hcov
      simp [validateCertificatePair, hk, hexp, hcov]

/-- C9 witness: the empty environment value defaults to the API hostname,
and a certificate covering that hostname passes the coverage check that the
non-empty default list triggers. -/
theorem C9_default_hostnames_witness :
    expectedHostnamesFromEnv "" (some "pve.example.com") = ["pve.example.com"] ∧
    validateCertificatePair (.ok exCert) (.ok exKey) ["pve.example.com"] 20 0 =
      (if certificateCoversHosts exCert ["pve.example.com"] then .ok ()
        else .error .hostnameNotCovered) :=
  ⟨C9_default_hostnames.1 "pve.example.com",
    C9_default_hostnames.2.2 exCert exKey 20 0 "pve.example.com" (by decide) (by decide)⟩

/-- C10: a missing certificate file or key file raises the `ConfigError`
of `_read_file` inside the validation `try` block of `main`, so the
process exits with code 3 (certificate failed validation), not 2
(configuration invalid). -/
theorem C10_missing_file_exits_3 :
    ∀ env : MainEnv, env.certFile = none ∨ env.keyFile = none →
      mainRun env = (3, 0, []) ∧ (mainRun env).1 ≠ 2 := by
  intro env h
  have hv : mainValidation env = .error .missingFile := by
    rcases h with h | h
    · simp [mainValidation, readRequiredFile, h]
    · cases hc : env.certFile with
      | none => simp [mainValidation, readRequiredFile, hc]
      | some pc => simp [mainValidation, readRequiredFile, hc, h]
  refine ⟨by simp [mainRun, hv, ValidationFailure.isConfigError], ?_⟩
  simp [mainRun, hv, ValidationFailure.isConfigError]

/-- C10 witness: a missing key file with a present, valid certificate file
exits 3. -/
theorem C10_missing_file_exits_3_witness :
    mainRun { exMainEnv with keyFile := none } = (3, 0, []) :=
  (C10_missing_file_exits_3 { exMainEnv with keyFile := none } (Or.inr rfl)).1

end ProxmoxCertSync
